import Mathlib

/-!
Shallow embedding of the bitrate-controller module of this repository
(src/webrtc/modules/bitrate_controller/bitrate_controller_impl.cc) together
with spec-modelled versions of the two collaborators whose sources are not in
the repository excerpt (the send-side bandwidth-estimation engine and the REMB
suppressor), and proofs of the frozen claims about them.

Machine integers are modelled as `Nat`/`Int` with explicit `% 2^32`
wrap-around where the C++ code performs unsigned 32-bit arithmetic.
-/

namespace Webrtc

/-- 2^32, the modulus of `uint32_t` arithmetic. -/
def two32 : Nat := 4294967296

/-- 2^31, the signed/unsigned boundary of 32-bit integers. -/
def two31 : Nat := 2147483648

/-- `uint32_t` subtraction `a - b`: wraps modulo 2^32. -/
def uint32Sub (a b : Nat) : Nat :=
  (a % two32 + two32 - b % two32) % two32

/-- Conversion of a `uint32_t` value to (32-bit, twos-complement) `int`,
as performed by the implicit conversion in
`int number_of_packets = it->extendedHighSeqNum - seq_num_it->second;`. -/
def toInt32 (n : Nat) : Int :=
  if n % two32 < two31 then ((n % two32 : Nat) : Int)
  else ((n % two32 : Nat) : Int) - ((two32 : Nat) : Int)

/-- Conversion of an `int` value to `uint8_t` (reduction mod 256), as performed
by passing `fraction_lost_aggregate` to a `uint8_t` parameter. -/
def toUInt8 (i : Int) : Nat :=
  (i % 256).toNat

/-- C++ `int` division: truncation toward zero. -/
def cppDiv (a b : Int) : Int :=
  a.tdiv b

/-! ## Spec-modelled bandwidth-estimation engine

The class behind the `bandwidth_estimation_` member is not part of the
repository excerpt; only its call sites are.  The state and the operations
below are modelled from the spec, sections 3 and 4.1. -/

/-- Modelled from the spec: `EstimationState` of the bandwidth-estimation
engine (spec section 3): current send bitrate, configured min/max bounds, the
most recent receiver cap (`0` = unset), the last loss fraction and round-trip
time, and the time of the last receiver block. -/
structure SendSideBandwidthEstimation where
  bitrate : Nat
  minBitrateConfigured : Nat
  maxBitrateConfigured : Nat
  bweIncoming : Nat
  lastFractionLoss : Nat
  lastRoundTripTime : Int
  lastFeedbackMs : Int
deriving Repr, DecidableEq

/-- Modelled from the spec: initial engine state; no estimate established yet
(`bitrate = 0`, see the `available_bandwidth` contract in spec section 6),
bounds open, receiver cap unset. -/
def SendSideBandwidthEstimation.init : SendSideBandwidthEstimation :=
  { bitrate := 0
    minBitrateConfigured := 0
    maxBitrateConfigured := 1000000000
    bweIncoming := 0
    lastFractionLoss := 0
    lastRoundTripTime := 0
    lastFeedbackMs := 0 }

/-- Modelled from the spec: clamping of every result to
`[min_bitrate, min(max_bitrate, receiver_cap)]` (spec section 4.1), with the
minimum applied last, so that the `min_bitrate <= send_bitrate` half of the
stated invariant always holds.  A cap of `0` means "unset". -/
def SendSideBandwidthEstimation.capBitrateToThresholds
    (s : SendSideBandwidthEstimation) (b : Nat) : Nat :=
  let upper := if s.bweIncoming = 0 then s.maxBitrateConfigured
               else min s.maxBitrateConfigured s.bweIncoming
  max s.minBitrateConfigured (min b upper)

/-- Modelled from the spec: `set_send_bitrate(bps)` sets the starting/forced
bitrate, clamped to the configured bounds (spec section 4.1). -/
def SendSideBandwidthEstimation.setSendBitrate
    (s : SendSideBandwidthEstimation) (b : Nat) : SendSideBandwidthEstimation :=
  { s with bitrate := s.capBitrateToThresholds b }

/-- Modelled from the spec: `set_min_max_bitrate(min, max)` updates the bounds
(clamping rather than rejecting a `min > max` contract violation, spec
section 7) and re-clamps the current bitrate so the stated state invariant is
maintained. -/
def SendSideBandwidthEstimation.setMinMaxBitrate
    (s : SendSideBandwidthEstimation) (mn mx : Nat) : SendSideBandwidthEstimation :=
  let s1 := { s with minBitrateConfigured := mn, maxBitrateConfigured := max mn mx }
  { s1 with bitrate := s1.capBitrateToThresholds s1.bitrate }

/-- Modelled from the spec: `update_receiver_estimate(cap_bps)` records a new
receiver-reported ceiling and re-clamps the current bitrate to not exceed it;
an increasing ceiling does not by itself raise the bitrate (spec section 4.1). -/
def SendSideBandwidthEstimation.updateReceiverEstimate
    (s : SendSideBandwidthEstimation) (c : Nat) : SendSideBandwidthEstimation :=
  let s1 := { s with bweIncoming := c }
  { s1 with bitrate := s1.capBitrateToThresholds s1.bitrate }

/-- Loss fraction (0-255 scale) above which a multiplicative decrease is
applied.  The spec fixes the role, not the constant (spec sections 1 and 4.1). -/
def kHighLossMark : Nat := 26

/-- Loss fraction (0-255 scale) below which a bounded additive increase is
applied.  The spec fixes the role, not the constant. -/
def kLowLossMark : Nat := 13

/-- Numerator of the additive-increase step; the step shrinks as the
round-trip time grows (spec section 4.1). -/
def kIncreaseNumeratorBps : Nat := 1000000

/-- Modelled from the spec: `update_receiver_block(fraction_loss, rtt_ms,
packet_count, now_ms)` (spec section 4.1): a `packet_count == 0` sample is
ignored; otherwise high loss triggers a multiplicative decrease proportional
to the loss excess, low loss a bounded additive increase shrinking with the
round-trip time, loss between the marks holds; the result is clamped. -/
def SendSideBandwidthEstimation.updateReceiverBlock
    (s : SendSideBandwidthEstimation) (fractionLoss : Nat) (rtt : Int)
    (packets : Int) (now : Int) : SendSideBandwidthEstimation :=
  if packets = 0 then s
  else
    let raw :=
      if kHighLossMark < fractionLoss then
        s.bitrate * (512 - min fractionLoss 255) / 512
      else if fractionLoss < kLowLossMark then
        s.bitrate + kIncreaseNumeratorBps / (rtt.toNat + 10) + 1000
      else s.bitrate
    { s with bitrate := s.capBitrateToThresholds raw
             lastFractionLoss := fractionLoss
             lastRoundTripTime := rtt
             lastFeedbackMs := now }

/-- Staleness window in milliseconds: the longest tolerated gap without a
receiver block before the engine decays the estimate (spec section 4.1). -/
def kStalenessWindowMs : Int := 1000

/-- Modelled from the spec: `update_estimate(now_ms)` (spec section 4.1): if no
receiver block has arrived within the staleness window, apply a conservative
multiplicative decay toward `min_bitrate`; otherwise hold (re-clamped). -/
def SendSideBandwidthEstimation.updateEstimate
    (s : SendSideBandwidthEstimation) (now : Int) : SendSideBandwidthEstimation :=
  if kStalenessWindowMs < now - s.lastFeedbackMs then
    { s with bitrate := s.capBitrateToThresholds (s.bitrate * 95 / 100) }
  else
    { s with bitrate := s.capBitrateToThresholds s.bitrate }

/-- Modelled from the spec: `current_estimate()` read-only snapshot
`(bitrate, fraction_loss, rtt)` (spec section 4.1). -/
def SendSideBandwidthEstimation.currentEstimate
    (s : SendSideBandwidthEstimation) : Nat × Nat × Int :=
  (s.bitrate, s.lastFractionLoss, s.lastRoundTripTime)

/-- Modelled from the spec: `min_bitrate()` read-only accessor. -/
def SendSideBandwidthEstimation.getMinBitrate
    (s : SendSideBandwidthEstimation) : Nat :=
  s.minBitrateConfigured

/-- One engine update, for quantifying over arbitrary call sequences. -/
inductive EngineOp where
  | setSendBitrate (b : Nat)
  | setMinMaxBitrate (mn mx : Nat)
  | updateReceiverEstimate (c : Nat)
  | updateReceiverBlock (fractionLoss : Nat) (rtt packets now : Int)
  | updateEstimate (now : Int)
deriving Repr, DecidableEq

/-- Apply one engine update. -/
def applyEngineOp (s : SendSideBandwidthEstimation) :
    EngineOp → SendSideBandwidthEstimation
  | .setSendBitrate b => s.setSendBitrate b
  | .setMinMaxBitrate mn mx => s.setMinMaxBitrate mn mx
  | .updateReceiverEstimate c => s.updateReceiverEstimate c
  | .updateReceiverBlock l r p n => s.updateReceiverBlock l r p n
  | .updateEstimate n => s.updateEstimate n

/-- Run a sequence of engine updates from a given state. -/
def runEngineOps (s : SendSideBandwidthEstimation) :
    List EngineOp → SendSideBandwidthEstimation
  | [] => s
  | op :: rest => runEngineOps (applyEngineOp s op) rest

/-! ## Spec-modelled REMB suppressor -/

/-- Modelled from the spec: the REMB suppressor state (spec section 4.3):
`enabled` (true only in screen-sharing mode) and the last bitrate actually
sent. -/
structure RembSuppressor where
  enabled : Bool
  bitrateSent : Nat
deriving Repr, DecidableEq

/-- Modelled from the spec: the suppression decision (spec section 4.3).  When
disabled every sample passes.  When enabled, a sample is suppressed exactly
when it is an increase over the last bitrate sent by a margin too small to be
meaningful (modelled as an increase of less than ten percent); a decrease
always passes through. -/
def RembSuppressor.suppresNewRemb (r : RembSuppressor) (bitrate : Nat) : Bool :=
  r.enabled && decide (r.bitrateSent < bitrate) && decide (bitrate * 10 < r.bitrateSent * 11)

/-- Modelled from the spec: `set_bitrate_sent(bps)` updates the comparison
baseline (spec section 4.3). -/
def RembSuppressor.setBitrateSent (r : RembSuppressor) (b : Nat) : RembSuppressor :=
  { r with bitrateSent := b }

/-- Modelled from the spec: `set_enabled(bool)`, driven by sender codec-mode
changes (spec section 4.3). -/
def RembSuppressor.setEnabled (r : RembSuppressor) (e : Bool) : RembSuppressor :=
  { r with enabled := e }

/-! ## Receiver-report aggregator
(`BitrateControllerImpl::RtcpBandwidthObserverImpl`, from the source) -/

/-- One RTCP report block, with the fields the aggregator reads:
`sourceSSRC` and `extendedHighSeqNum` are `uint32_t` values (< 2^32),
`fractionLost` a `uint8_t` value (< 256). -/
structure ReportBlock where
  sourceSSRC : Nat
  fractionLost : Nat
  extendedHighSeqNum : Nat
deriving Repr, DecidableEq

/-- The per-SSRC watermark map
`ssrc_to_last_received_extended_high_seq_num_`, embedded as an association
list (the iteration order of the `std::map` is never observed). -/
def SeqNumMap : Type := List (Nat × Nat)

instance : DecidableEq SeqNumMap := by
  unfold SeqNumMap
  infer_instance

/-- `map.find(ssrc)`: the stored watermark for an SSRC, if present. -/
def lookupSeq : SeqNumMap → Nat → Option Nat
  | [], _ => none
  | (k, v) :: rest, ssrc => if k = ssrc then some v else lookupSeq rest ssrc

/-- `map[ssrc] = value`: store (insert or overwrite) a watermark. -/
def storeSeq : SeqNumMap → Nat → Nat → SeqNumMap
  | [], ssrc, v => [(ssrc, v)]
  | (k, w) :: rest, ssrc, v =>
    if k = ssrc then (ssrc, v) :: rest else (k, w) :: storeSeq rest ssrc v

/-- The `int number_of_packets` computed for one report block
(bitrate_controller_impl.cc lines 51-54): zero if the SSRC is unknown,
otherwise the unsigned 32-bit difference `extendedHighSeqNum - stored`
converted to a signed 32-bit `int`. -/
def numberOfPacketsForBlock (m : SeqNumMap) (blk : ReportBlock) : Int :=
  match lookupSeq m blk.sourceSSRC with
  | none => 0
  | some recorded => toInt32 (uint32Sub blk.extendedHighSeqNum recorded)

/-- Accumulator of the report-block loop: `fraction_lost_aggregate`,
`total_number_of_packets` (both C++ `int`), and the watermark map. -/
structure BatchAccum where
  agg : Int
  total : Int
  map : SeqNumMap
deriving DecidableEq

/-- One iteration of the loop in `OnReceivedRtcpReceiverReport`
(bitrate_controller_impl.cc lines 46-62). -/
def processBlock (acc : BatchAccum) (blk : ReportBlock) : BatchAccum :=
  let n := numberOfPacketsForBlock acc.map blk
  { agg := acc.agg + n * (blk.fractionLost : Int)
    total := acc.total + n
    map := storeSeq acc.map blk.sourceSSRC blk.extendedHighSeqNum }

/-- The whole report-block loop, starting from aggregates `0` and the current
watermark map. -/
def processBatch (m : SeqNumMap) (blocks : List ReportBlock) : BatchAccum :=
  blocks.foldl processBlock { agg := 0, total := 0, map := m }

/-- The values forwarded to the controller by the aggregator:
`(fraction_loss, rtt, number_of_packets, now_ms)`. -/
abbrev ForwardedReport := Nat × Int × Int × Int

/-- `RtcpBandwidthObserverImpl::OnReceivedRtcpReceiverReport`
(bitrate_controller_impl.cc lines 34-73), as a function from the watermark map
and the batch to the new map and the optionally forwarded aggregate.  An empty
batch returns early; a computed aggregate above 255 is dropped; otherwise the
aggregate (converted to `uint8_t`), the round-trip time, the total packet
count and the time are forwarded to the controller. -/
def RtcpBandwidthObserverImpl.onReceivedRtcpReceiverReport
    (m : SeqNumMap) (blocks : List ReportBlock) (rtt nowMs : Int) :
    SeqNumMap × Option ForwardedReport :=
  if blocks.isEmpty then (m, none)
  else
    let acc := processBatch m blocks
    let aggregate : Int :=
      if acc.total = 0 then 0
      else cppDiv (acc.agg + cppDiv acc.total 2) acc.total
    if 255 < aggregate then (acc.map, none)
    else (acc.map, some (toUInt8 aggregate, rtt, acc.total, nowMs))

/-! ## Controller (`BitrateControllerImpl`, from the source) -/

/-- One observer invocation `OnNetworkChanged(bitrate, fraction_loss, rtt)`. -/
abbrev ObserverCall := Nat × Nat × Int

/-- The mutable state of `BitrateControllerImpl` (bitrate_controller_impl.cc
lines 86-99): the time of the last periodic bitrate update, the engine, the
reserved bitrate, the last notified snapshot fields, and the REMB
suppressor. -/
structure BitrateControllerImpl where
  lastBitrateUpdateMs : Int
  bandwidthEstimation : SendSideBandwidthEstimation
  reservedBitrateBps : Nat
  lastBitrateBps : Nat
  lastFractionLoss : Nat
  lastRttMs : Int
  lastReservedBitrateBps : Nat
  rembSuppressor : RembSuppressor
deriving Repr, DecidableEq

/-- The constructor state (bitrate_controller_impl.cc lines 86-99), given the
clock reading `now0` at construction time. -/
def BitrateControllerImpl.init (now0 : Int) : BitrateControllerImpl :=
  { lastBitrateUpdateMs := now0
    bandwidthEstimation := SendSideBandwidthEstimation.init
    reservedBitrateBps := 0
    lastBitrateBps := 0
    lastFractionLoss := 0
    lastRttMs := 0
    lastReservedBitrateBps := 0
    rembSuppressor := { enabled := false, bitrateSent := 0 } }

/-- `BitrateControllerImpl::MaybeTriggerOnNetworkChanged`
(bitrate_controller_impl.cc lines 173-196): recompute the exposed bitrate
(estimate minus reserved, floored at the engine minimum); if any of the four
compared fields differs from the last notified values, record the new values
and invoke the observer once. -/
def BitrateControllerImpl.maybeTriggerOnNetworkChanged
    (s : BitrateControllerImpl) : BitrateControllerImpl × List ObserverCall :=
  let est := s.bandwidthEstimation.currentEstimate
  let bitrate0 := est.1
  let fractionLoss := est.2.1
  let rtt := est.2.2
  let bitrate1 := bitrate0 - min bitrate0 s.reservedBitrateBps
  let bitrate := max bitrate1 s.bandwidthEstimation.getMinBitrate
  if bitrate ≠ s.lastBitrateBps ∨ fractionLoss ≠ s.lastFractionLoss ∨
      rtt ≠ s.lastRttMs ∨ s.lastReservedBitrateBps ≠ s.reservedBitrateBps then
    ({ s with lastBitrateBps := bitrate
              lastFractionLoss := fractionLoss
              lastRttMs := rtt
              lastReservedBitrateBps := s.reservedBitrateBps },
     [(bitrate, fractionLoss, rtt)])
  else (s, [])

/-- `BitrateControllerImpl::SetStartBitrate` (lines 109-112): delegates to the
engine; makes no observer invocation. -/
def BitrateControllerImpl.setStartBitrate
    (s : BitrateControllerImpl) (b : Nat) : BitrateControllerImpl × List ObserverCall :=
  ({ s with bandwidthEstimation := s.bandwidthEstimation.setSendBitrate b }, [])

/-- `BitrateControllerImpl::SetMinMaxBitrate` (lines 114-118): delegates to
the engine; makes no observer invocation. -/
def BitrateControllerImpl.setMinMaxBitrate
    (s : BitrateControllerImpl) (mn mx : Nat) : BitrateControllerImpl × List ObserverCall :=
  ({ s with bandwidthEstimation := s.bandwidthEstimation.setMinMaxBitrate mn mx }, [])

/-- `BitrateControllerImpl::SetReservedBitrate` (lines 120-126): records the
reserved bitrate, then runs change detection. -/
def BitrateControllerImpl.setReservedBitrate
    (s : BitrateControllerImpl) (r : Nat) : BitrateControllerImpl × List ObserverCall :=
  BitrateControllerImpl.maybeTriggerOnNetworkChanged { s with reservedBitrateBps := r }

/-- `BitrateControllerImpl::OnReceivedEstimatedBitrate` (lines 128-137): a
suppressed sample returns immediately; otherwise the engine's receiver
estimate is updated and change detection runs. -/
def BitrateControllerImpl.onReceivedEstimatedBitrate
    (s : BitrateControllerImpl) (b : Nat) : BitrateControllerImpl × List ObserverCall :=
  if s.rembSuppressor.suppresNewRemb b then (s, [])
  else
    BitrateControllerImpl.maybeTriggerOnNetworkChanged
      { s with bandwidthEstimation := s.bandwidthEstimation.updateReceiverEstimate b }

/-- The fixed periodic update interval (bitrate_controller_impl.cc line 140). -/
def kBitrateControllerUpdateIntervalMs : Int := 25

/-- `BitrateControllerImpl::TimeUntilNextProcess` (lines 139-146), with the
clock reading passed explicitly. -/
def BitrateControllerImpl.timeUntilNextProcess
    (s : BitrateControllerImpl) (now : Int) : Int :=
  max (kBitrateControllerUpdateIntervalMs - (now - s.lastBitrateUpdateMs)) 0

/-- `BitrateControllerImpl::Process` (lines 148-158): a no-op when invoked
early; otherwise runs the engine's time-driven update, change detection, and
records the update time. -/
def BitrateControllerImpl.process
    (s : BitrateControllerImpl) (now : Int) : BitrateControllerImpl × List ObserverCall :=
  if 0 < s.timeUntilNextProcess now then (s, [])
  else
    let s1 := { s with bandwidthEstimation := s.bandwidthEstimation.updateEstimate now }
    let res := s1.maybeTriggerOnNetworkChanged
    ({ res.1 with lastBitrateUpdateMs := now }, res.2)

/-- `BitrateControllerImpl::OnReceivedRtcpReceiverReport` (lines 160-171): the
controller-side entry fed by the aggregator; updates the engine's receiver
block and runs change detection. -/
def BitrateControllerImpl.onReceivedRtcpReceiverReport
    (s : BitrateControllerImpl) (fractionLoss : Nat) (rtt packets now : Int) :
    BitrateControllerImpl × List ObserverCall :=
  BitrateControllerImpl.maybeTriggerOnNetworkChanged
    { s with bandwidthEstimation :=
        s.bandwidthEstimation.updateReceiverBlock fractionLoss rtt packets now }

/-- `BitrateControllerImpl::AvailableBandwidth` (lines 198-210), embedded as a
state-passing function to state its frame condition: returns the exposed
bandwidth, or `none` when the engine's bitrate is zero, together with the
(unchanged) state. -/
def BitrateControllerImpl.availableBandwidth
    (s : BitrateControllerImpl) : Option Nat × BitrateControllerImpl :=
  let est := s.bandwidthEstimation.currentEstimate
  let bitrate := est.1
  if bitrate ≠ 0 then
    let bw := bitrate - min bitrate s.reservedBitrateBps
    (some (max bw s.bandwidthEstimation.getMinBitrate), s)
  else (none, s)

/-- `BitrateControllerImpl::SetBitrateSent` (lines 212-215): delegates to the
suppressor; makes no observer invocation. -/
def BitrateControllerImpl.setBitrateSent
    (s : BitrateControllerImpl) (b : Nat) : BitrateControllerImpl × List ObserverCall :=
  ({ s with rembSuppressor := s.rembSuppressor.setBitrateSent b }, [])

/-- `BitrateControllerImpl::SetCodecMode` (lines 217-220): enables the
suppressor exactly in screen-sharing mode; makes no observer invocation. -/
def BitrateControllerImpl.setCodecMode
    (s : BitrateControllerImpl) (screensharing : Bool) : BitrateControllerImpl × List ObserverCall :=
  ({ s with rembSuppressor := s.rembSuppressor.setEnabled screensharing }, [])

/-! ## Derived snapshot notions (spec section 3, `ControllerSnapshot`) -/

/-- The exposed-bitrate formula of spec section 4.4: the raw estimate minus
the reserved bitrate (saturating), floored at the engine minimum. -/
def exposedBitrate (raw reserved minBitrate : Nat) : Nat :=
  max (raw - min raw reserved) minBitrate

/-- The externally visible snapshot tuple
`(bitrate, fraction_loss, rtt, reserved_bitrate)` derived from the current
state. -/
def currentSnapshot (s : BitrateControllerImpl) : Nat × Nat × Int × Nat :=
  (exposedBitrate s.bandwidthEstimation.bitrate s.reservedBitrateBps
     s.bandwidthEstimation.minBitrateConfigured,
   s.bandwidthEstimation.lastFractionLoss,
   s.bandwidthEstimation.lastRoundTripTime,
   s.reservedBitrateBps)

/-- The previously notified snapshot tuple stored in the controller. -/
def notifiedSnapshot (s : BitrateControllerImpl) : Nat × Nat × Int × Nat :=
  (s.lastBitrateBps, s.lastFractionLoss, s.lastRttMs, s.lastReservedBitrateBps)

/-! ## Theorems for the claims -/

/-- C7: whenever the controller computes the externally exposed bitrate (for
change-detection/notification and for `AvailableBandwidth`), the exposed value
equals `max(raw - min(raw, reserved), engine_min)`, and the reserved-bitrate
subtraction never drives the exposed value below the engine minimum, for every
raw estimate and every reserved value. -/
theorem exposed_bitrate_correct (s : BitrateControllerImpl) :
    ((s.maybeTriggerOnNetworkChanged).2 = [] ∨
      (s.maybeTriggerOnNetworkChanged).2 =
        [(exposedBitrate s.bandwidthEstimation.bitrate s.reservedBitrateBps
            s.bandwidthEstimation.minBitrateConfigured,
          s.bandwidthEstimation.lastFractionLoss,
          s.bandwidthEstimation.lastRoundTripTime)]) ∧
    (s.bandwidthEstimation.bitrate ≠ 0 →
      (s.availableBandwidth).1 =
        some (exposedBitrate s.bandwidthEstimation.bitrate s.reservedBitrateBps
                s.bandwidthEstimation.minBitrateConfigured)) ∧
    (∀ raw reserved minBitrate : Nat, minBitrate ≤ exposedBitrate raw reserved minBitrate) :=
  by
  refine ⟨?_, ?_, ?_⟩
  · unfold BitrateControllerImpl.maybeTriggerOnNetworkChanged
    dsimp only
    split
    · exact Or.inr rfl
    · exact Or.inl rfl
  · intro h
    unfold BitrateControllerImpl.availableBandwidth
    dsimp only [SendSideBandwidthEstimation.currentEstimate, SendSideBandwidthEstimation.getMinBitrate]
    rw [if_pos h]
    rfl
  · intro raw reserved minBitrate
    exact le_max_right _ _

/-- Witness for C7 at a concrete controller state with a nonzero estimate. -/
theorem exposed_bitrate_correct_witness :
    ((((BitrateControllerImpl.init 0).setStartBitrate 500000).1.setReservedBitrate 50000).1.bandwidthEstimation.bitrate ≠ 0 ∧
    (((((BitrateControllerImpl.init 0).setStartBitrate 500000).1.setReservedBitrate 50000).1.availableBandwidth).1 =
      some (exposedBitrate
        ((((BitrateControllerImpl.init 0).setStartBitrate 500000).1.setReservedBitrate 50000).1.bandwidthEstimation.bitrate)
        ((((BitrateControllerImpl.init 0).setStartBitrate 500000).1.setReservedBitrate 50000).1.reservedBitrateBps)
        ((((BitrateControllerImpl.init 0).setStartBitrate 500000).1.setReservedBitrate 50000).1.bandwidthEstimation.minBitrateConfigured)))) :=
  ⟨by decide,
   (exposed_bitrate_correct
     (((BitrateControllerImpl.init 0).setStartBitrate 500000).1.setReservedBitrate 50000).1).2.1
     (by decide)⟩

/-- C8: `AvailableBandwidth` returns none exactly when the engine's current
bitrate is zero; for a nonzero bitrate it returns the reserved-adjusted,
minimum-floored value; in both cases the state is unchanged. -/
theorem available_bandwidth_contract (s : BitrateControllerImpl) :
    (s.availableBandwidth).2 = s ∧
    ((s.availableBandwidth).1 = none ↔ s.bandwidthEstimation.bitrate = 0) ∧
    (s.bandwidthEstimation.bitrate ≠ 0 →
      (s.availableBandwidth).1 =
        some (exposedBitrate s.bandwidthEstimation.bitrate s.reservedBitrateBps
                s.bandwidthEstimation.minBitrateConfigured)) := by
  unfold BitrateControllerImpl.availableBandwidth
  dsimp only [SendSideBandwidthEstimation.currentEstimate, SendSideBandwidthEstimation.getMinBitrate]
  by_cases h : s.bandwidthEstimation.bitrate = 0
  · rw [if_neg (by simpa using h)]
    exact ⟨rfl, by simp [h], fun hc => absurd h hc⟩
  · rw [if_pos h]
    exact ⟨rfl, by simp [h], fun _ => rfl⟩

/-- Witness for C8 at the freshly constructed controller, whose engine has no
estimate yet. -/
theorem available_bandwidth_contract_witness :
    (((BitrateControllerImpl.init 0).availableBandwidth).2 = BitrateControllerImpl.init 0) ∧
    ((BitrateControllerImpl.init 0).availableBandwidth).1 = none :=
  ⟨(available_bandwidth_contract (BitrateControllerImpl.init 0)).1,
   (available_bandwidth_contract (BitrateControllerImpl.init 0)).2.1.mpr (by decide)⟩

/-- C9: if `TimeUntilNextProcess` is positive, an immediately following
`Process` call leaves the whole controller (and engine) state unchanged and
performs no observer invocation. -/
theorem process_early_noop (s : BitrateControllerImpl) (now : Int)
    (h : 0 < s.timeUntilNextProcess now) :
    s.process now = (s, []) := by
  unfold BitrateControllerImpl.process
  rw [if_pos h]

/-- Witness for C9 ten milliseconds after construction. -/
theorem process_early_noop_witness :
    0 < (BitrateControllerImpl.init 0).timeUntilNextProcess 10 ∧
    (BitrateControllerImpl.init 0).process 10 = (BitrateControllerImpl.init 0, []) :=
  ⟨by decide, process_early_noop (BitrateControllerImpl.init 0) 10 (by decide)⟩

/-- C10: a receiver-estimate sample that the REMB suppressor decides to
suppress leaves the controller state (engine included) unchanged and produces
no observer invocation. -/
theorem suppressed_remb_noop (s : BitrateControllerImpl) (b : Nat)
    (h : s.rembSuppressor.suppresNewRemb b = true) :
    s.onReceivedEstimatedBitrate b = (s, []) := by
  unfold BitrateControllerImpl.onReceivedEstimatedBitrate
  rw [if_pos h]

/-- Witness for C10: suppressor enabled with 200000 sent, sample 210000. -/
theorem suppressed_remb_noop_witness :
    ({ BitrateControllerImpl.init 0 with
        rembSuppressor := { enabled := true, bitrateSent := 200000 } } :
      BitrateControllerImpl).rembSuppressor.suppresNewRemb 210000 = true ∧
    ({ BitrateControllerImpl.init 0 with
        rembSuppressor := { enabled := true, bitrateSent := 200000 } } :
      BitrateControllerImpl).onReceivedEstimatedBitrate 210000 =
      ({ BitrateControllerImpl.init 0 with
          rembSuppressor := { enabled := true, bitrateSent := 200000 } }, []) :=
  ⟨by decide,
   suppressed_remb_noop
     { BitrateControllerImpl.init 0 with
        rembSuppressor := { enabled := true, bitrateSent := 200000 } } 210000 (by decide)⟩

/-! ## C1: boundedness of the engine estimate -/

/-- The engine state invariant maintained by every update: well-ordered
bounds, the estimate within them, and the estimate at most
`max(min_bitrate, receiver_cap)` whenever a cap is set. -/
def EngineInv (s : SendSideBandwidthEstimation) : Prop :=
  s.minBitrateConfigured ≤ s.maxBitrateConfigured ∧
  s.minBitrateConfigured ≤ s.bitrate ∧
  s.bitrate ≤ s.maxBitrateConfigured ∧
  (s.bweIncoming ≠ 0 → s.bitrate ≤ max s.minBitrateConfigured s.bweIncoming)

/-- The clamp lands inside the configured bounds and below
`max(min_bitrate, receiver_cap)`. -/
theorem capBitrateToThresholds_bounds (s : SendSideBandwidthEstimation) (b : Nat)
    (h : s.minBitrateConfigured ≤ s.maxBitrateConfigured) :
    s.minBitrateConfigured ≤ s.capBitrateToThresholds b ∧
    s.capBitrateToThresholds b ≤ s.maxBitrateConfigured ∧
    (s.bweIncoming ≠ 0 →
      s.capBitrateToThresholds b ≤ max s.minBitrateConfigured s.bweIncoming) := by
  unfold SendSideBandwidthEstimation.capBitrateToThresholds
  dsimp only
  split
  · refine ⟨?_, ?_, ?_⟩ <;> omega
  · refine ⟨?_, ?_, ?_⟩ <;> omega

/-- Every single engine update preserves the invariant. -/
theorem applyEngineOp_inv (s : SendSideBandwidthEstimation) (op : EngineOp)
    (h : EngineInv s) : EngineInv (applyEngineOp s op) := by
  obtain ⟨h1, h2, h3, h4⟩ := h
  cases op with
  | setSendBitrate b =>
    have hb := capBitrateToThresholds_bounds s b h1
    exact ⟨h1, hb.1, hb.2.1, hb.2.2⟩
  | setMinMaxBitrate mn mx =>
    unfold applyEngineOp SendSideBandwidthEstimation.setMinMaxBitrate
    dsimp only
    have h1n : mn ≤ max mn mx := le_max_left mn mx
    have hb := capBitrateToThresholds_bounds
      { s with minBitrateConfigured := mn, maxBitrateConfigured := max mn mx }
      s.bitrate h1n
    exact ⟨h1n, hb.1, hb.2.1, hb.2.2⟩
  | updateReceiverEstimate c =>
    unfold applyEngineOp SendSideBandwidthEstimation.updateReceiverEstimate
    dsimp only
    have hb := capBitrateToThresholds_bounds { s with bweIncoming := c } s.bitrate h1
    exact ⟨h1, hb.1, hb.2.1, hb.2.2⟩
  | updateReceiverBlock l r p n =>
    unfold applyEngineOp SendSideBandwidthEstimation.updateReceiverBlock
    dsimp only
    split
    · exact ⟨h1, h2, h3, h4⟩
    · have hb := capBitrateToThresholds_bounds s
        (if kHighLossMark < l then s.bitrate * (512 - min l 255) / 512
         else if l < kLowLossMark then s.bitrate + kIncreaseNumeratorBps / (r.toNat + 10) + 1000
         else s.bitrate) h1
      exact ⟨h1, hb.1, hb.2.1, hb.2.2⟩
  | updateEstimate n =>
    unfold applyEngineOp SendSideBandwidthEstimation.updateEstimate
    dsimp only
    split
    · have hb := capBitrateToThresholds_bounds s (s.bitrate * 95 / 100) h1
      exact ⟨h1, hb.1, hb.2.1, hb.2.2⟩
    · have hb := capBitrateToThresholds_bounds s s.bitrate h1
      exact ⟨h1, hb.1, hb.2.1, hb.2.2⟩

/-- The invariant holds after any sequence of engine updates. -/
theorem runEngineOps_inv (ops : List EngineOp) :
    ∀ s : SendSideBandwidthEstimation, EngineInv s → EngineInv (runEngineOps s ops) := by
  induction ops with
  | nil => intro s h; exact h
  | cons op rest ih => intro s h; exact ih _ (applyEngineOp_inv s op h)

/-- C1 (amended): for every sequence of engine updates starting from the
initial engine state, the estimate stays within
`[min_bitrate, max_bitrate]`, and whenever a receiver cap is set it never
exceeds `max(min_bitrate, receiver_cap)` — the cap binds unless it lies below
the configured minimum, which always wins. -/
theorem engine_estimate_bounded (ops : List EngineOp) :
    (runEngineOps SendSideBandwidthEstimation.init ops).minBitrateConfigured ≤
      (runEngineOps SendSideBandwidthEstimation.init ops).bitrate ∧
    (runEngineOps SendSideBandwidthEstimation.init ops).bitrate ≤
      (runEngineOps SendSideBandwidthEstimation.init ops).maxBitrateConfigured ∧
    ((runEngineOps SendSideBandwidthEstimation.init ops).bweIncoming ≠ 0 →
      (runEngineOps SendSideBandwidthEstimation.init ops).bitrate ≤
        max (runEngineOps SendSideBandwidthEstimation.init ops).minBitrateConfigured
          (runEngineOps SendSideBandwidthEstimation.init ops).bweIncoming) := by
  have h := runEngineOps_inv ops SendSideBandwidthEstimation.init
    ⟨by decide, by decide, by decide, fun hc => absurd rfl hc⟩
  exact ⟨h.2.1, h.2.2.1, h.2.2.2⟩

/-- Witness for C1 (amended): a concrete update sequence setting bounds, a
start bitrate, and a receiver cap. -/
theorem engine_estimate_bounded_witness :
    ((runEngineOps SendSideBandwidthEstimation.init
        [.setMinMaxBitrate 50000 2000000, .setSendBitrate 500000,
         .updateReceiverEstimate 300000]).bweIncoming ≠ 0) ∧
    (runEngineOps SendSideBandwidthEstimation.init
        [.setMinMaxBitrate 50000 2000000, .setSendBitrate 500000,
         .updateReceiverEstimate 300000]).bitrate ≤
      max (runEngineOps SendSideBandwidthEstimation.init
            [.setMinMaxBitrate 50000 2000000, .setSendBitrate 500000,
             .updateReceiverEstimate 300000]).minBitrateConfigured
        (runEngineOps SendSideBandwidthEstimation.init
            [.setMinMaxBitrate 50000 2000000, .setSendBitrate 500000,
             .updateReceiverEstimate 300000]).bweIncoming :=
  ⟨by decide,
   (engine_estimate_bounded
     [.setMinMaxBitrate 50000 2000000, .setSendBitrate 500000,
      .updateReceiverEstimate 300000]).2.2 (by decide)⟩

/-- Counterexample to C1 as stated: after configuring
`min = 300000, max = 2000000` and receiving a receiver cap of `100000`, the
cap is set, yet the estimate (`300000`, the configured minimum) exceeds it:
the minimum bound and the receiver cap cannot both be respected when the cap
falls below the minimum. -/
theorem engine_cap_exceeded_counterexample :
    (runEngineOps SendSideBandwidthEstimation.init
        [.setMinMaxBitrate 300000 2000000, .updateReceiverEstimate 100000]).bweIncoming =
      100000 ∧
    ¬ (runEngineOps SendSideBandwidthEstimation.init
        [.setMinMaxBitrate 300000 2000000, .updateReceiverEstimate 100000]).bitrate ≤
      100000 := by
  decide

/-! ## C2: stale report blocks -/

/-- Storing a watermark makes it the looked-up value for that SSRC. -/
theorem lookupSeq_storeSeq_self (m : SeqNumMap) (k v : Nat) :
    lookupSeq (storeSeq m k v) k = some v := by
  induction m with
  | nil => simp [storeSeq, lookupSeq]
  | cons kv rest ih =>
    obtain ⟨k0, v0⟩ := kv
    by_cases hk : k0 = k
    · subst hk
      simp [storeSeq, lookupSeq]
    · simp [storeSeq, lookupSeq, hk, ih]

/-- C2 (amended): for a report block whose `extendedHighSeqNum` lies below the
stored watermark for its SSRC (by at most 2^31), the computed packet count is
the negative value `extendedHighSeqNum - stored` — it is not clamped to zero
and contributes negative weight — and the stored watermark is unconditionally
overwritten with the block's smaller value, moving it backward. -/
theorem stale_block_negative_weight (m : SeqNumMap) (acc : BatchAccum)
    (blk : ReportBlock) (recorded : Nat)
    (hacc : acc.map = m)
    (hfound : lookupSeq m blk.sourceSSRC = some recorded)
    (hlt : blk.extendedHighSeqNum < recorded)
    (hrange : recorded - blk.extendedHighSeqNum ≤ two31)
    (hrec : recorded < two32) :
    numberOfPacketsForBlock m blk =
      (blk.extendedHighSeqNum : Int) - (recorded : Int) ∧
    numberOfPacketsForBlock m blk < 0 ∧
    lookupSeq (processBlock acc blk).map blk.sourceSSRC =
      some blk.extendedHighSeqNum := by
  have hext : blk.extendedHighSeqNum < two32 := lt_trans hlt hrec
  have h32 : two32 = 4294967296 := rfl
  have h31 : two31 = 2147483648 := rfl
  rw [h32] at hext hrec
  rw [h31] at hrange
  have h1 : uint32Sub blk.extendedHighSeqNum recorded =
      blk.extendedHighSeqNum + 4294967296 - recorded := by
    unfold uint32Sub
    rw [h32, Nat.mod_eq_of_lt hext, Nat.mod_eq_of_lt hrec]
    exact Nat.mod_eq_of_lt (by omega)
  have hval : numberOfPacketsForBlock m blk =
      (blk.extendedHighSeqNum : Int) - (recorded : Int) := by
    unfold numberOfPacketsForBlock
    rw [hfound]
    dsimp only
    rw [h1]
    unfold toInt32
    rw [h32, h31, Nat.mod_eq_of_lt (show
      blk.extendedHighSeqNum + 4294967296 - recorded < 4294967296 by omega)]
    rw [if_neg (by omega)]
    have hcast : ((blk.extendedHighSeqNum + 4294967296 - recorded : Nat) : Int) =
        (blk.extendedHighSeqNum : Int) + 4294967296 - (recorded : Int) := by
      push_cast [Nat.cast_sub (show recorded ≤ blk.extendedHighSeqNum + 4294967296 by omega)]
      ring
    rw [hcast]
    push_cast
    ring
  refine ⟨hval, ?_, ?_⟩
  · rw [hval]
    have hc : (blk.extendedHighSeqNum : Int) < (recorded : Int) := by exact_mod_cast hlt
    omega
  · unfold processBlock
    dsimp only
    rw [hacc]
    exact lookupSeq_storeSeq_self m blk.sourceSSRC blk.extendedHighSeqNum

/-- Witness for C2 (amended): SSRC 1 with stored watermark 10 receives a block
with `extendedHighSeqNum = 5`. -/
theorem stale_block_negative_weight_witness :
    ((([(1, 10)] : SeqNumMap) = [(1, 10)]) ∧
      lookupSeq [(1, 10)] (1 : Nat) = some 10 ∧
      (5 : Nat) < 10 ∧ (10 : Nat) - 5 ≤ two31 ∧ (10 : Nat) < two32) ∧
    (numberOfPacketsForBlock [(1, 10)] ⟨1, 0, 5⟩ =
        ((5 : Nat) : Int) - ((10 : Nat) : Int) ∧
      numberOfPacketsForBlock [(1, 10)] ⟨1, 0, 5⟩ < 0 ∧
      lookupSeq (processBlock ⟨0, 0, [(1, 10)]⟩ ⟨1, 0, 5⟩).map 1 = some 5) :=
  ⟨⟨rfl, by decide, by decide, by decide, by decide⟩,
   stale_block_negative_weight [(1, 10)] ⟨0, 0, [(1, 10)]⟩ ⟨1, 0, 5⟩ 10
     rfl (by decide) (by decide) (by decide) (by decide)⟩

/-- Counterexample to C2 as stated: with stored watermark 10 for SSRC 1, a
block reporting `extendedHighSeqNum = 5` yields a computed packet count of
`-5` (not clamped to at least zero) and moves the stored watermark back from
10 to 5. -/
theorem stale_block_counterexample :
    numberOfPacketsForBlock [(1, 10)] ⟨1, 0, 5⟩ < 0 ∧
    lookupSeq (processBlock ⟨0, 0, [(1, 10)]⟩ ⟨1, 0, 5⟩).map 1 = some 5 ∧
    ¬ (10 : Nat) ≤ 5 := by
  decide

/-! ## C5 and C6: the forwarded aggregate -/

/-- Half-up rounding of the rational `s / t`, as a natural number. -/
def roundHalfUp (s t : Nat) : Nat :=
  (2 * s + t) / (2 * t)

/-- The integer trick `(s + t/2) / t` computes half-up rounding of `s / t`. -/
theorem addHalfDiv (s t : Nat) (ht : 0 < t) :
    (s + t / 2) / t = (2 * s + t) / (2 * t) := by
  obtain ⟨k, hk⟩ | ⟨k, hk⟩ := Nat.even_or_odd t
  · subst hk
    have h2 : (k + k) / 2 = k := by omega
    rw [h2]
    have e1 : 2 * s + (k + k) = 2 * (s + k) := by ring
    rw [e1, Nat.mul_div_mul_left _ _ (show 0 < 2 by omega)]
  · subst hk
    have h2 : (2 * k + 1) / 2 = k := by omega
    rw [h2]
    have hd := Nat.div_add_mod (s + k) (2 * k + 1)
    have hm : (s + k) % (2 * k + 1) < 2 * k + 1 := Nat.mod_lt _ (by omega)
    set q := (s + k) / (2 * k + 1) with hq
    set r := (s + k) % (2 * k + 1) with hr
    have key : (2 * s + (2 * k + 1)) / (2 * (2 * k + 1)) = q := by
      apply Nat.div_eq_of_lt_le
      · have e : q * (2 * (2 * k + 1)) = 2 * ((2 * k + 1) * q) := by ring
        rw [e]
        omega
      · have e : (q + 1) * (2 * (2 * k + 1)) = 2 * ((2 * k + 1) * q) + (4 * k + 2) := by ring
        rw [e]
        omega
    rw [key]

/-- C5 (amended): for every batch with positive total weight and nonnegative
weighted-loss sum whose rounded aggregate is in range, the loss fraction
forwarded to the engine equals `round(sum(w_i * l_i) / sum(w_i))`, rounding
half up; in particular, two flows with sequence deltas 100 and 50 and loss
fractions 10 and 40 yield aggregate loss 20 (not 12: the weighted sum is
3000, and 3000 / 150 rounds to 20). -/
theorem aggregate_loss_is_round_half_up :
    (∀ (m : SeqNumMap) (blocks : List ReportBlock) (rtt nowMs : Int),
        blocks ≠ [] →
        0 < (processBatch m blocks).total →
        0 ≤ (processBatch m blocks).agg →
        roundHalfUp (processBatch m blocks).agg.toNat
            (processBatch m blocks).total.toNat ≤ 255 →
        (RtcpBandwidthObserverImpl.onReceivedRtcpReceiverReport m blocks rtt nowMs).2 =
          some (roundHalfUp (processBatch m blocks).agg.toNat
                  (processBatch m blocks).total.toNat,
                rtt, (processBatch m blocks).total, nowMs)) ∧
    (RtcpBandwidthObserverImpl.onReceivedRtcpReceiverReport [(1, 1000), (2, 2000)]
        [⟨1, 10, 1100⟩, ⟨2, 40, 2050⟩] 0 0).2 = some (20, 0, 150, 0) := by
  constructor
  · intro m blocks rtt nowMs hne hpos hnn hle
    unfold RtcpBandwidthObserverImpl.onReceivedRtcpReceiverReport
    rw [if_neg (by simp [List.isEmpty_iff, hne])]
    dsimp only
    set acc := processBatch m blocks with hacc
    have htne : acc.total ≠ 0 := by omega
    rw [if_neg htne]
    set a := acc.agg.toNat with ha2
    set t := acc.total.toNat with ht2
    have ha : acc.agg = (a : Int) := (Int.toNat_of_nonneg hnn).symm
    have htn : acc.total = (t : Int) := (Int.toNat_of_nonneg (le_of_lt hpos)).symm
    have ht0 : 0 < t := by omega
    have hagg : cppDiv (acc.agg + cppDiv acc.total 2) acc.total =
        ((roundHalfUp a t : Nat) : Int) := by
      rw [ha, htn]
      have e1 : cppDiv (t : Int) 2 = ((t / 2 : Nat) : Int) := rfl
      rw [e1]
      have e2 : (a : Int) + ((t / 2 : Nat) : Int) = ((a + t / 2 : Nat) : Int) := by
        push_cast
        ring
      rw [e2]
      have e3 : cppDiv ((a + t / 2 : Nat) : Int) (t : Int) =
          (((a + t / 2) / t : Nat) : Int) := rfl
      rw [e3, addHalfDiv a t ht0]
      rfl
    rw [hagg]
    rw [if_neg (by omega)]
    have htu : toUInt8 ((roundHalfUp a t : Nat) : Int) = roundHalfUp a t := by
      unfold toUInt8
      omega
    rw [htu]
  · decide

/-- Witness for C5 (amended), applying the general statement to the concrete
two-flow batch of the spec example. -/
theorem aggregate_loss_is_round_half_up_witness :
    (([⟨1, 10, 1100⟩, ⟨2, 40, 2050⟩] : List ReportBlock) ≠ [] ∧
      0 < (processBatch [(1, 1000), (2, 2000)]
            [⟨1, 10, 1100⟩, ⟨2, 40, 2050⟩]).total ∧
      0 ≤ (processBatch [(1, 1000), (2, 2000)]
            [⟨1, 10, 1100⟩, ⟨2, 40, 2050⟩]).agg ∧
      roundHalfUp (processBatch [(1, 1000), (2, 2000)]
            [⟨1, 10, 1100⟩, ⟨2, 40, 2050⟩]).agg.toNat
          (processBatch [(1, 1000), (2, 2000)]
            [⟨1, 10, 1100⟩, ⟨2, 40, 2050⟩]).total.toNat ≤ 255) ∧
    (RtcpBandwidthObserverImpl.onReceivedRtcpReceiverReport [(1, 1000), (2, 2000)]
        [⟨1, 10, 1100⟩, ⟨2, 40, 2050⟩] 0 0).2 =
      some (roundHalfUp (processBatch [(1, 1000), (2, 2000)]
              [⟨1, 10, 1100⟩, ⟨2, 40, 2050⟩]).agg.toNat
            (processBatch [(1, 1000), (2, 2000)]
              [⟨1, 10, 1100⟩, ⟨2, 40, 2050⟩]).total.toNat,
            0, (processBatch [(1, 1000), (2, 2000)]
                 [⟨1, 10, 1100⟩, ⟨2, 40, 2050⟩]).total, 0) :=
  ⟨⟨by decide, by decide, by decide, by decide⟩,
   aggregate_loss_is_round_half_up.1 [(1, 1000), (2, 2000)]
     [⟨1, 10, 1100⟩, ⟨2, 40, 2050⟩] 0 0
     (by decide) (by decide) (by decide) (by decide)⟩

/-- Counterexample to C5 as stated: the spec's own example batch (sequence
deltas 100 and 50, loss fractions 10 and 40) is forwarded with aggregate loss
20, not 12. -/
theorem aggregate_loss_example_counterexample :
    (RtcpBandwidthObserverImpl.onReceivedRtcpReceiverReport [(1, 1000), (2, 2000)]
        [⟨1, 10, 1100⟩, ⟨2, 40, 2050⟩] 0 0).2 = some (20, 0, 150, 0) ∧
    (20 : Nat) ≠ 12 := by
  decide

/-- C6 (amended): a nonempty batch whose total computed weight is zero is
forwarded to the engine as a zero-information update
(`fraction_loss = 0`, `packet_count = 0`), which the engine ignores; an empty
batch, however, returns early and is not forwarded at all. -/
theorem zero_weight_batch_forwarded_as_zero :
    (∀ (m : SeqNumMap) (blocks : List ReportBlock) (rtt nowMs : Int),
        blocks ≠ [] → (processBatch m blocks).total = 0 →
        (RtcpBandwidthObserverImpl.onReceivedRtcpReceiverReport m blocks rtt nowMs).2 =
          some (0, rtt, 0, nowMs)) ∧
    (∀ (e : SendSideBandwidthEstimation) (fractionLoss : Nat) (rtt nowMs : Int),
        e.updateReceiverBlock fractionLoss rtt 0 nowMs = e) ∧
    (∀ (m : SeqNumMap) (rtt nowMs : Int),
        RtcpBandwidthObserverImpl.onReceivedRtcpReceiverReport m [] rtt nowMs =
          (m, none)) := by
  refine ⟨?_, ?_, ?_⟩
  · intro m blocks rtt nowMs hne hz
    unfold RtcpBandwidthObserverImpl.onReceivedRtcpReceiverReport
    rw [if_neg (by simp [List.isEmpty_iff, hne])]
    dsimp only
    rw [if_pos hz]
    rw [if_neg (by norm_num)]
    rw [hz]
    rfl
  · intro e fractionLoss rtt nowMs
    unfold SendSideBandwidthEstimation.updateReceiverBlock
    rw [if_pos rfl]
  · intro m rtt nowMs
    rfl

/-- Witness for C6 (amended): the first-ever report for SSRC 1 has weight
zero and is forwarded as a zero-information update. -/
theorem zero_weight_batch_witness :
    (([⟨1, 10, 1000⟩] : List ReportBlock) ≠ [] ∧
      (processBatch [] [⟨1, 10, 1000⟩]).total = 0) ∧
    (RtcpBandwidthObserverImpl.onReceivedRtcpReceiverReport [] [⟨1, 10, 1000⟩] 3 4).2 =
      some (0, 3, 0, 4) :=
  ⟨⟨by decide, by decide⟩,
   zero_weight_batch_forwarded_as_zero.1 [] [⟨1, 10, 1000⟩] 3 4 (by decide) (by decide)⟩

/-- Counterexample to C6 as stated: an empty report batch is not forwarded to
the engine as a zero-information update — the observer returns early and
forwards nothing. -/
theorem empty_batch_counterexample :
    (RtcpBandwidthObserverImpl.onReceivedRtcpReceiverReport [(1, 7)] [] 5 9).2 = none ∧
    (RtcpBandwidthObserverImpl.onReceivedRtcpReceiverReport [(1, 7)] [] 5 9).2 ≠
      some (0, 5, 0, 9) := by
  decide

/-! ## C3 and C4: observer-notification discipline -/

/-- Change detection fires exactly once when the derived snapshot differs
from the last notified one, and not at all otherwise. -/
theorem maybeTrigger_calls_length (s : BitrateControllerImpl) :
    ((s.maybeTriggerOnNetworkChanged).2.length =
      if currentSnapshot s = notifiedSnapshot s then 0 else 1) := by
  unfold BitrateControllerImpl.maybeTriggerOnNetworkChanged
  dsimp only [SendSideBandwidthEstimation.currentEstimate,
    SendSideBandwidthEstimation.getMinBitrate]
  unfold currentSnapshot notifiedSnapshot exposedBitrate
  split
  next h =>
    rw [if_neg]
    · rfl
    · rw [Prod.mk.injEq, Prod.mk.injEq, Prod.mk.injEq]
      rintro ⟨h1, h2, h3, h4⟩
      rcases h with h | h | h | h
      · exact h h1
      · exact h h2
      · exact h h3
      · exact h h4.symm
  next h =>
    rw [if_pos]
    · rfl
    · push_neg at h
      rw [Prod.mk.injEq, Prod.mk.injEq, Prod.mk.injEq]
      exact ⟨h.1, h.2.1, h.2.2.1, h.2.2.2.symm⟩

/-- C3 (amended): per controller event, the observer is invoked exactly once
when the derived snapshot tuple differs from the previously notified tuple
and zero times when it is unchanged — for non-suppressed receiver-estimate
arrivals, receiver-report arrivals, due periodic ticks, and reserved-bitrate
changes; a suppressed receiver-estimate arrival and an early periodic tick,
however, never invoke the observer, even if the snapshot tuple differs from
the previously notified one. -/
theorem notify_exactly_on_snapshot_change (s : BitrateControllerImpl)
    (b fractionLoss r : Nat) (rtt packets now tnow : Int) :
    (s.rembSuppressor.suppresNewRemb b = false →
      (s.onReceivedEstimatedBitrate b).2.length =
        if currentSnapshot
            { s with bandwidthEstimation := s.bandwidthEstimation.updateReceiverEstimate b } =
           notifiedSnapshot s then 0 else 1) ∧
    (s.rembSuppressor.suppresNewRemb b = true →
      (s.onReceivedEstimatedBitrate b).2 = []) ∧
    ((s.onReceivedRtcpReceiverReport fractionLoss rtt packets now).2.length =
      if currentSnapshot
          { s with bandwidthEstimation :=
              s.bandwidthEstimation.updateReceiverBlock fractionLoss rtt packets now } =
         notifiedSnapshot s then 0 else 1) ∧
    (s.timeUntilNextProcess tnow = 0 →
      (s.process tnow).2.length =
        if currentSnapshot
            { s with bandwidthEstimation := s.bandwidthEstimation.updateEstimate tnow } =
           notifiedSnapshot s then 0 else 1) ∧
    (0 < s.timeUntilNextProcess tnow → (s.process tnow).2 = []) ∧
    ((s.setReservedBitrate r).2.length =
      if currentSnapshot { s with reservedBitrateBps := r } =
         notifiedSnapshot { s with reservedBitrateBps := r } then 0 else 1) := by
  refine ⟨?_, ?_, ?_, ?_, ?_, ?_⟩
  · intro h
    unfold BitrateControllerImpl.onReceivedEstimatedBitrate
    rw [if_neg (by simp [h])]
    exact maybeTrigger_calls_length _
  · intro h
    unfold BitrateControllerImpl.onReceivedEstimatedBitrate
    rw [if_pos h]
  · exact maybeTrigger_calls_length _
  · intro h
    unfold BitrateControllerImpl.process
    rw [if_neg (by omega)]
    dsimp only
    exact maybeTrigger_calls_length _
  · intro h
    unfold BitrateControllerImpl.process
    rw [if_pos h]
  · exact maybeTrigger_calls_length _

/-- Witness for C3 (amended): the early-tick conjunct at a concrete state. -/
theorem notify_exactly_on_snapshot_change_witness :
    0 < (BitrateControllerImpl.init 0).timeUntilNextProcess 10 ∧
    ((BitrateControllerImpl.init 0).process 10).2 = [] :=
  ⟨by decide,
   (notify_exactly_on_snapshot_change (BitrateControllerImpl.init 0)
     0 0 0 0 0 0 10).2.2.2.2.1 (by decide)⟩

/-- Counterexample to C3 as stated: after `SetStartBitrate(500000)` (which
does not notify), a periodic-tick event arrives while the snapshot tuple
differs from the previously notified tuple, yet the observer is invoked zero
times, not exactly once (the tick is early and recomputes nothing). -/
theorem notify_missed_change_counterexample :
    ((((BitrateControllerImpl.init 0).setStartBitrate 500000).1.process 10).2 = []) ∧
    currentSnapshot ((((BitrateControllerImpl.init 0).setStartBitrate 500000).1.process 10).1) ≠
      notifiedSnapshot ((((BitrateControllerImpl.init 0).setStartBitrate 500000).1.process 10).1) := by
  decide

/-- C4 (amended): only `SetReservedBitrate` follows the two-phase pattern
(mutate, then recompute the snapshot and notify on change);
`SetStartBitrate`, `SetMinMaxBitrate`, `SetBitrateSent` and `SetCodecMode`
mutate protected state and return without recomputing the snapshot or
invoking the observer, leaving the notified snapshot untouched. -/
theorem setters_notification_behavior (s : BitrateControllerImpl)
    (b mn mx bs r : Nat) (mode : Bool) :
    ((s.setStartBitrate b).2 = [] ∧
      notifiedSnapshot (s.setStartBitrate b).1 = notifiedSnapshot s) ∧
    ((s.setMinMaxBitrate mn mx).2 = [] ∧
      notifiedSnapshot (s.setMinMaxBitrate mn mx).1 = notifiedSnapshot s) ∧
    ((s.setBitrateSent bs).2 = [] ∧
      notifiedSnapshot (s.setBitrateSent bs).1 = notifiedSnapshot s) ∧
    ((s.setCodecMode mode).2 = [] ∧
      notifiedSnapshot (s.setCodecMode mode).1 = notifiedSnapshot s) ∧
    (s.setReservedBitrate r =
      BitrateControllerImpl.maybeTriggerOnNetworkChanged { s with reservedBitrateBps := r }) :=
  ⟨⟨rfl, rfl⟩, ⟨rfl, rfl⟩, ⟨rfl, rfl⟩, ⟨rfl, rfl⟩, rfl⟩

/-- Counterexample to C4 as stated: `SetStartBitrate(500000)` on a fresh
controller changes the engine estimate — so the recomputed snapshot differs
from the previously notified one — yet performs no observer invocation and no
snapshot recomputation. -/
theorem set_start_bitrate_no_notify_counterexample :
    (((BitrateControllerImpl.init 0).setStartBitrate 500000).2 = []) ∧
    currentSnapshot (((BitrateControllerImpl.init 0).setStartBitrate 500000).1) ≠
      notifiedSnapshot (((BitrateControllerImpl.init 0).setStartBitrate 500000).1) := by
  decide

end Webrtc
